import Mathlib

/-!
Verification development for the escheatment due-diligence mailing-list
formatter (`parse.py`).  The Python source is shallowly embedded below:
pure helpers become Lean functions over `String` and `List String`,
records are lists of 26 canonical field values, and fallible steps
(Python exceptions such as `KeyError`, `IndexError`, `ValueError` and
`struct.error`) are modelled with `Except Unit`.
-/

set_option autoImplicit false

deriving instance DecidableEq for Except

namespace DD

/-- Model of `replaceNonAsciiChars` (parse.py lines 101-112).  The source
decodes the byte line, replaces the replacement character, the broken-bar
and the non-breaking-space characters with plain spaces, and re-encodes
down to 7-bit ASCII replacing anything unrepresentable with a space.  On
characters representable in latin-1 the net effect is: ASCII characters
are kept, every other character becomes a single space. -/
def replaceNonAsciiChars (s : String) : String :=
  String.mk (s.toList.map (fun c => if c.toNat ≤ 127 then c else ' '))

/-- Splits a character sequence into its maximal whitespace-free words,
dropping all whitespace: a character that is not whitespace joins the
word of the following character when that is not whitespace either, and
otherwise starts a word of its own. -/
def splitWSAux : List Char → List (List Char)
  | [] => []
  | c :: cs =>
    let ws := splitWSAux cs
    if c.isWhitespace then ws
    else
      match cs with
      | [] => [[c]]
      | d :: _ =>
        if d.isWhitespace then [c] :: ws
        else
          match ws with
          | [] => [[c]]
          | w :: rest => (c :: w) :: rest

/-- Model of Python `text.split()`: split on runs of whitespace, dropping
empty pieces. -/
def pySplitWS (s : String) : List String :=
  (splitWSAux s.data).map String.mk

/-- Model of Python `" ".join(text.split())`: collapse internal whitespace
runs to single spaces and trim both ends (parse.py lines 205, 289, 327). -/
def collapseWS (s : String) : String :=
  String.intercalate " " (pySplitWS s)

/-- Model of Python `text.upper()` on ASCII text. -/
def pyUpper (s : String) : String :=
  String.mk (s.data.map Char.toUpper)

/-- The canonical header `static_hdr = [f[0] for f in data_fields]`
(parse.py lines 76, 115-143): the 26 canonical field names, in order. -/
def staticHdr : List String :=
  ["FileTransmissionDate", "UPRR Job Number", "LT", "Company Name",
   "Company Number", "ASTSourceFileDate", "Account Number",
   "NameAddress1", "NameAddress2", "NameAddress3", "NameAddress4",
   "NameAddress5", "NameAddress6", "NameAddress7", "NameAddress8",
   "Verification Code", "Filler", "Mailing City", "Zip", "Mailing State",
   "Shares", "Certified", "LetterCode", "Sequence", "Escheatment State",
   "AddressType"]

/-- Model of `static_hdr.index(name)`.  Every use in the source looks up a
name that is present, so the out-of-range fallback of `findIdx` is never
reached. -/
def hdrIdx (name : String) : Nat :=
  staticHdr.findIdx (fun h => h == name)

/-- The zip normalization the Record Classifier applies to non-foreign
records (parse.py lines 350-353): when the code is longer than 5
characters and carries no hyphen, insert a hyphen after the 5th
character.  Python `"-" not in zip` is single-character containment. -/
def formatZip (zip : String) : String :=
  if 5 < zip.length ∧ '-' ∉ zip.data then
    String.mk (zip.data.take 5) ++ "-" ++ String.mk (zip.data.drop 5)
  else zip

theorem string_data_append (a b : String) : (a ++ b).data = a.data ++ b.data := by
  cases a; cases b; rfl

theorem formatZip_hyphen_mem (z : String) :
    '-' ∈ (String.mk (z.data.take 5) ++ "-" ++ String.mk (z.data.drop 5)).data := by
  rw [string_data_append, string_data_append]
  exact List.mem_append_left _ (List.mem_append_right _ (by simp [String.data]))

/-- C8: domestic postal-code normalization is idempotent, and a code of 5
or fewer characters is returned unchanged. -/
theorem C8_formatZip_idempotent (z : String) :
    formatZip (formatZip z) = formatZip z ∧ (z.length ≤ 5 → formatZip z = z) := by
  by_cases h : 5 < z.length ∧ '-' ∉ z.data
  · constructor
    · have hz : formatZip z =
          String.mk (z.data.take 5) ++ "-" ++ String.mk (z.data.drop 5) := if_pos h
      rw [hz]
      have hmem := formatZip_hyphen_mem z
      exact if_neg (fun hc => hc.2 hmem)
    · intro hle
      exact absurd h.1 (Nat.not_lt.mpr hle)
  · have hz : formatZip z = z := if_neg h
    exact ⟨by rw [hz, hz], fun _ => hz⟩

/-- Witness for C8 at concrete inputs: a 9-digit code and a 5-digit code. -/
theorem C8_witness :
    formatZip (formatZip "123456789") = formatZip "123456789" ∧
    formatZip "12345" = "12345" :=
  ⟨(C8_formatZip_idempotent "123456789").1,
   (C8_formatZip_idempotent "12345").2 (by decide)⟩

/-- Sequentialized mapping into `Except`.  This models the row-building
loops of the source, which append one value per iteration and abort the
whole batch on the first raised exception. -/
def mapExcept {α β : Type} (f : α → Except Unit β) : List α → Except Unit (List β)
  | [] => .ok []
  | a :: as =>
    match f a with
    | .error e => .error e
    | .ok b =>
      match mapExcept f as with
      | .error e => .error e
      | .ok bs => .ok (b :: bs)

/-- Model of one iteration of the `for fieldName, pattern in data_fields`
loop of `getFieldsIndxs` (parse.py lines 295-306).  A pattern is modelled
as a function returning, for a column name, the text matched by
`pattern.match(col).group(0)` when the regex matches anchored at the start
of the name, and `none` otherwise.  The source scans the columns for the
first one the pattern matches, then records
`data_cols.index(field_found)` - the index of the first column *equal to
the matched text* - raising `ValueError` when no column equals it; when no
column matches at all it records the empty-string sentinel (here `none`). -/
def fieldIndexForPattern (data_cols : List String) (p : String → Option String) :
    Except Unit (Option Nat) :=
  match data_cols.find? (fun col => (p col).isSome) with
  | none => .ok none
  | some col =>
    match p col with
    | none => .ok none
    | some field_found =>
      match data_cols.findIdx? (fun c => c == field_found) with
      | some found_idx => .ok (some found_idx)
      | none => .error ()

/-- Model of `getFieldsIndxs` (parse.py lines 284-312): the header is
whitespace-collapsed and every canonical pattern is resolved in order.
The diagnostic found/not-found lists are side-channel output and are not
modelled. -/
def getFieldsIndxs (csv_hdr : List String)
    (data_fields : List (String × (String → Option String))) :
    Except Unit (List (Option Nat)) :=
  let data_cols := csv_hdr.map collapseWS
  mapExcept (fun f => fieldIndexForPattern data_cols f.2) data_fields

/-- Model of the anchored match of the compiled literal regex Zip (parse.py line 135): a literal
regex matches anchored at the start exactly when it is a prefix of the
column name, and `group(0)` is then the literal itself. -/
def zipPattern (col : String) : Option String :=
  if "Zip".data.isPrefixOf col.data then some "Zip" else none

/-- Model of `getFieldValuesFromLine` (parse.py lines 315-330): for each
resolved index take the cell at that index (an out-of-range index raises
`IndexError`), sanitize it and collapse whitespace; for the empty-string sentinel
(`none`) substitute the empty string. -/
def getFieldValuesFromLine (line : List String) (field_indxs : List (Option Nat)) :
    Except Unit (List String) :=
  mapExcept
    (fun idx =>
      match idx with
      | none => .ok ""
      | some i =>
        match line.get? i with
        | some field => .ok (collapseWS (replaceNonAsciiChars field))
        | none => .error ())
    field_indxs

/-- The entries of the `create_us_dict` literal (parse.py lines 146-169),
in source order.  The key `FM` is bound twice in the source dict literal;
as in Python, the later binding wins (see `pyDictLookup`). -/
def usDictEntries : List (String × String) :=
  [("AL", "Alabama"), ("AK", "Alaska"), ("AZ", "Arizona"),
   ("AR", "Arkansas"), ("CA", "California"), ("CO", "Colorado"),
   ("CT", "Connecticut"), ("DE", "Delaware"), ("FL", "Florida"),
   ("GA", "Georgia"), ("HI", "Hawaii"), ("ID", "Idaho"), ("IL", "Illinois"),
   ("IN", "Indiana"), ("IA", "Iowa"), ("KS", "Kansas"), ("KY", "Kentucky"),
   ("LA", "Louisiana"), ("ME", "Maine"), ("MD", "Maryland"),
   ("MA", "Massachusetts"), ("MI", "Michigan"), ("MN", "Minnesota"),
   ("MS", "Mississippi"), ("MO", "Missouri"), ("MT", "Montana"),
   ("NE", "Nebraska"), ("NV", "Nevada"), ("NH", "New Hampshire"),
   ("NJ", "New Jersey"), ("NM", "New Mexico"), ("NY", "New York"),
   ("NC", "North Carolina"), ("ND", "North Dakota"), ("OH", "Ohio"),
   ("OK", "Oklahoma"), ("OR", "Oregon"), ("PA", "Pennsylvania"),
   ("RI", "Rhode Island"), ("SC", "South Carolina"), ("SD", "South Dakota"),
   ("TN", "Tennessee"), ("TX", "Texas"), ("UT", "Utah"), ("VT", "Vermont"),
   ("VA", "Virginia"), ("WA", "Washington"), ("WV", "West Virginia"),
   ("WI", "Wisconsin"), ("WY", "Wyoming"), ("AS", "American Samoa"),
   ("DC", "District of Columbia"), ("FM", "Micronesia"),
   ("FM", "Federated States of Micronesia"), ("GU", "Guam"),
   ("MH", "Marshall Islands"), ("MP", "Northern Mariana Islands"),
   ("PW", "Palau"), ("PR", "Puerto Rico"), ("VI", "U.S. Virgin Islands")]

/-- Lookup in a Python dict built from a literal: later bindings shadow
earlier ones. -/
def pyDictLookup (entries : List (String × String)) (key : String) : Option String :=
  (entries.reverse.find? (fun e => e.1 == key)).map Prod.snd

/-- Model of `us_dict[escheat_state]`: `some` full name when the
abbreviation is a key, otherwise the lookup raises `KeyError`. -/
def usLookup (abbv : String) : Option String :=
  pyDictLookup usDictEntries abbv

/-- Python 2 values of the two types compared on parse.py line 229. -/
inductive PyVal : Type
  | vint (n : Nat)
  | vstr (s : String)

/-- Python 2 `==` on these values: an int and a str never compare equal
(no exception, simply `False`). -/
def pyValEq : PyVal → PyVal → Bool
  | .vint a, .vint b => a == b
  | .vstr a, .vstr b => a == b
  | .vint _, .vstr _ => false
  | .vstr _, .vint _ => false

/-- Model of `line[:5].count("") == ""` (parse.py line 229): the
end-of-data check compares the int `count` result with the str `""`. -/
def sentinelHit (line : List String) : Bool :=
  pyValEq (PyVal.vint ((line.take 5).countP (fun c => c == ""))) (PyVal.vstr "")

/-- Model of the per-row body of `processXLSfromCSV` (parse.py lines
232-247): build the canonical row, translate the Escheatment State
abbreviation through the lookup table (`KeyError` aborts when the
abbreviation is not a key), and synthesize a missing LT number from the
company and account numbers. -/
def processRow (field_indxs : List (Option Nat)) (line : List String) :
    Except Unit (List String) :=
  match getFieldValuesFromLine line field_indxs with
  | .error e => .error e
  | .ok dataRow =>
    match usLookup (dataRow.getD (hdrIdx "Escheatment State") "") with
    | none => .error ()
    | some fullName =>
      let dataRow := dataRow.set (hdrIdx "Escheatment State") fullName
      let dataRow :=
        if dataRow.getD (hdrIdx "LT") "" == "" then
          dataRow.set (hdrIdx "LT")
            ((dataRow.getD (hdrIdx "Company Number") "") ++
             (dataRow.getD (hdrIdx "Account Number") ""))
        else dataRow
      .ok dataRow

/-- Model of the data-row loop of `processXLSfromCSV` (parse.py lines
228-247): rows are processed in order; a row on which the end-of-data
check fires would stop the loop, and a raised exception aborts the
batch. -/
def processXLSRows (field_indxs : List (Option Nat)) :
    List (List String) → Except Unit (List (List String))
  | [] => .ok []
  | line :: rest =>
    if sentinelHit line then .ok []
    else
      match processRow field_indxs line with
      | .error e => .error e
      | .ok r =>
        match processXLSRows field_indxs rest with
        | .error e => .error e
        | .ok rs => .ok (r :: rs)

/-- The fixed-width layout of `processTXT` (parse.py line 198): 24 field
byte widths summing to 453. -/
def fieldWidths : List Nat :=
  [8, 6, 9, 40, 12, 8, 19, 40, 40, 40, 40, 40, 40, 40, 4, 36, 40, 9, 2, 14, 1, 2, 6, 20]

/-- Consecutive fixed-width slices of a character sequence, one per
width, as produced by `struct.Struct(formatStr).unpack_from`. -/
def splitWidths : List Nat → List Char → List String
  | [], _ => []
  | w :: ws, cs => String.mk (cs.take w) :: splitWidths ws (cs.drop w)

/-- Model of Python `list.insert(i, v)` for `i` at most the length. -/
def insertAt {α : Type} (i : Nat) (v : α) (l : List α) : List α :=
  l.take i ++ [v] ++ l.drop i

/-- Model of the per-line body of `processTXT` (parse.py lines 202-211):
sanitize the line, slice it by the fixed widths (`unpack_from` raises
`struct.error` when the line is shorter than the struct size, the sum of
the widths), collapse whitespace in every field, then extend the 24
parsed values by `outputLine.insert(static_hdr.index("NameAddress7"), "")`
and `outputLine.append("")`. -/
def processTXTLine (line : String) : Except Unit (List String) :=
  let ascii_line := replaceNonAsciiChars line
  if fieldWidths.sum ≤ ascii_line.length then
    let outputLine := (splitWidths fieldWidths ascii_line.toList).map collapseWS
    .ok (insertAt (hdrIdx "NameAddress7") "" outputLine ++ [""])
  else .error ()

/-- Pads a field value with trailing spaces to a fixed width (used only
to build concrete flat-file test lines). -/
def padTo (w : Nat) (s : String) : String :=
  s ++ String.mk (List.replicate (w - s.length) ' ')

/-- The 24 flat-file field values of a concrete test line, in layout
order: the seven flat-file name/address lines are NAME LINE 1 and ADDR2
through ADDR7. -/
def sampleFields : List String :=
  ["20180101", "123456", "LT1234567", "ACME CORP", "COMP1", "20180102",
   "ACCT1", "NAME LINE 1", "ADDR2", "ADDR3", "ADDR4", "ADDR5", "ADDR6",
   "ADDR7", "PIN1", "FILL", "SPRINGFIELD", "12345", "IL", "100", "N",
   "AA", "1", "ILLINOIS"]

/-- The concrete 453-character flat-file line built from `sampleFields`. -/
def sampleLine : String :=
  String.join (List.zipWith padTo fieldWidths sampleFields)

/-- Word characters of Python 2 `\w` on byte strings: ASCII letters,
digits and the underscore. -/
def isWordChar (c : Char) : Bool :=
  c.isAlphanum || c == '_'

/-- Whether a position preceded by `prev` (`none` at the start of the
text) is a `\b` boundary before a word character. -/
def bdryOK : Option Char → Bool
  | none => true
  | some c => !isWordChar c

/-- Whether the position before `rest` is a `\b` boundary after a word
character. -/
def endBdry : List Char → Bool
  | [] => true
  | c :: _ => !isWordChar c

/-- One pattern character of an alternation phrase against one text
character, case-insensitively; a literal `.` in the phrase is the regex
any-character (this occurs in the phrase `St. John\x27s`). -/
def phraseCharMatch (p c : Char) : Bool :=
  p == '.' || p.toLower == c.toLower

/-- Matches a phrase against the front of the text, returning the
remaining text on success. -/
def matchPhraseFrom : List Char → List Char → Option (List Char)
  | [], rest => some rest
  | _ :: _, [] => none
  | p :: ps, c :: cs => if phraseCharMatch p c then matchPhraseFrom ps cs else none

/-- Scans every position of the text for a word-bounded, case-insensitive
occurrence of the phrase (the `\bphrase\b` alternatives of the country
patterns; every phrase starts and ends with a word character, so `\b`
amounts to checking the neighbouring characters). -/
def searchWordAux (phrase : List Char) : Option Char → List Char → Bool
  | _, [] => false
  | prev, c :: cs =>
    (bdryOK prev &&
      (match matchPhraseFrom phrase (c :: cs) with
       | some rest => endBdry rest
       | none => false))
    || searchWordAux phrase (some c) cs

/-- Whether `re.search` of `\bphrase\b` (IGNORECASE) succeeds on `s`. -/
def containsWordPhrase (phrase : String) (s : String) : Bool :=
  searchWordAux phrase.toList none s.toList

/-- First-letter class `[ABCEGHJ-NPRSTVXY]` of the Canadian postal-code
regex (parse.py line 407), case-insensitive. -/
def inClassL1 (c : Char) : Bool :=
  "ABCEGHJKLMNPRSTVXY".toList.contains c.toUpper

/-- Interior-letter class `[ABCEGHJ-NPRSTV-Z]` of the Canadian
postal-code regex, case-insensitive. -/
def inClassL2 (c : Char) : Bool :=
  "ABCEGHJKLMNPRSTVWXYZ".toList.contains c.toUpper

/-- The `[0-9][ABCEGHJ-NPRSTV-Z][0-9]\b` tail of the Canadian postal-code
regex. -/
def zipSecondHalf : List Char → Bool
  | x :: y :: z :: more => x.isDigit && inClassL2 y && z.isDigit && endBdry more
  | _ => false

/-- The Canadian postal-code regex matched at the current position:
`[ABCEGHJ-NPRSTVXY][0-9][ABCEGHJ-NPRSTV-Z](\s|-)?[0-9][ABCEGHJ-NPRSTV-Z][0-9]\b`. -/
def canadaZipFrom : List Char → Bool
  | a :: b :: c :: rest =>
    inClassL1 a && b.isDigit && inClassL2 c &&
      (zipSecondHalf rest ||
        (match rest with
         | s :: rest2 => (s.isWhitespace || s == '-') && zipSecondHalf rest2
         | [] => false))
  | _ => false

/-- Scans the text for the leading `\b` boundary and the postal-code
body. -/
def searchCanadaZipAux : Option Char → List Char → Bool
  | _, [] => false
  | prev, c :: cs => (bdryOK prev && canadaZipFrom (c :: cs)) || searchCanadaZipAux (some c) cs

/-- Model of `re.search(canada_zip_pattern, city)` (parse.py line 407). -/
def canadaZipMatch (s : String) : Bool :=
  searchCanadaZipAux none s.toList

/-- The `\bQC\b\s\b[ABCEGHJ-NPRSTVXY][0-9][ABCEGHJ-NPRSTV-Z]` arm of
`ontario_quebec_abbv_pattern` matched at the current position: `QC`, one
whitespace character (which also discharges the `\b` after `QC` and the
`\b` before the letter), then letter-digit-letter. -/
def qcFrom : List Char → Bool
  | q :: c :: s :: a :: b :: d :: _ =>
    q.toLower == 'q' && c.toLower == 'c' && s.isWhitespace &&
      inClassL1 a && b.isDigit && inClassL2 d
  | _ => false

/-- Scans the text for the `QC`-with-postal-code arm. -/
def searchQCAux : Option Char → List Char → Bool
  | _, [] => false
  | prev, c :: cs => (bdryOK prev && qcFrom (c :: cs)) || searchQCAux (some c) cs

/-- Model of `re.search(ontario_quebec_abbv_pattern, city)` (parse.py
line 410).  The source regex is `(\bON\b)|(\bQC\b)\s\b[...][0-9][...]`
with IGNORECASE: regex alternation binds loosest, so the two alternatives
are the bare word `ON`, and `QC` followed by one whitespace and the start
of a postal code. -/
def oqMatch (s : String) : Bool :=
  containsWordPhrase "ON" s || searchQCAux none s.toList

/-- The keyword list of `canada_major_cities_pattern` (parse.py line
409). -/
def canadaMajorCitiesList : List String :=
  ["CANADA", "TORONTO", "ONTARIO", "QUEBEC", "ALBERTA", "MONTREAL"]

/-- Model of `re.search(canada_major_cities_pattern, text)`. -/
def canadaMajorCitiesMatch (s : String) : Bool :=
  canadaMajorCitiesList.any (fun w => containsWordPhrase w s)

/-- The alternation phrases of `canada_provinces` (parse.py lines
367-375), in source order. -/
def canadaProvList : List String :=
  ["Canada", "Alberta", "Calgary", "Edmonton", "Strathcona County",
   "British Columbia", "Vancouver", "Surrey", "Burnaby", "Manitoba",
   "Winnipeg", "Brandon", "Springfield", "New Brunswick", "Moncton",
   "Saint John", "Fredericton", "Newfoundland and Labrador",
   "St. John\x27s", "Conception Bay South", "Mount Pearl",
   "Northwest Territories", "Yellowknife", "Hay River", "Inuvik",
   "Nova Scotia", "Halifax", "Sydney", "Lunenburg", "Nunavut", "Iqaluit",
   "Arviat", "Rankin Inlet", "Ontario", "Toronto", "Ottawa",
   "Mississauga", "Prince Edward Island", "Charlottetown", "Summerside",
   "Stratford", "Quebec", "Montreal", "Quebec City", "Laval",
   "Saskatchewan", "Saskatoon", "Regina", "Prince Albert", "Yukon",
   "Whitehorse", "Dawson City", "Faro"]

/-- Model of `re.search(canada_prov_pattern, city)`. -/
def canadaProvMatch (s : String) : Bool :=
  canadaProvList.any (fun w => containsWordPhrase w s)

/-- The alternation phrases of `mexico_states_cities` (parse.py lines
377-401), in source order, duplicates included. -/
def mexicoList : List String :=
  ["Chihuahua", "Sonora", "Coahuila", "Durango", "Oaxaca", "Tamaulipas",
   "Jalisco", "Zacatecas", "Baja California Sur", "Chiapas", "Veracruz",
   "Baja California", "Nuevo Leon", "Guerrero", "San Luis Potosi",
   "Michoacan", "Sinaloa", "Campeche", "Quintana Roo", "Yucatan",
   "Puebla", "Guanajuato", "Nayarit", "Tabasco", "Mexico", "Hidalgo",
   "Queretaro", "Colima", "Aguascalientes", "Morelos", "Tlaxcala",
   "Ciudad de Mexico", "Mexico City", "Ecatepec", "Guadalajara",
   "Puebla", "Juarez", "Tijuana", "Leon", "Monterrey", "Zapopan",
   "Nezahualcoyotl", "Culiacan", "Chihuahua", "Naucalpan", "Merida",
   "San Luis Potosi", "Aguascalientes", "Hermosillo", "Saltillo",
   "Mexicali", "Guadalupe", "Acapulco", "Tlalnepantla", "Cancun",
   "Queretaro", "Chimalhuacan", "Torreon", "Morelia", "Reynosa",
   "Tlaquepaque", "Tuxtla Gutierrez", "Durango", "Toluca",
   "Ciudad Lopez Mateos", "Cuautitlan Izcalli", "Ciudad Apodaca",
   "Matamoros", "San Nicolas de los Garza", "Veracruz", "Xalapa",
   "Tonala", "Mazatlan", "Irapuato", "Nuevo Laredo", "Xico",
   "Villahermosa", "General Escobedo", "Celaya", "Cuernavaca", "Tepic",
   "Ixtapaluca", "Ciudad Victoria", "Ciudad Obregon", "Tampico",
   "Ciudad Nicolas Romero", "Ensenada", "Coacalco de Berriozabal",
   "Santa Catarina", "Uruapan", "Gomez Palacio", "Los Mochis", "Pachuca",
   "Oaxaca", "Soledad de Graciano Sanchez", "Tehuacan", "Ojo de Agua",
   "Coatzacoalcos", "Campeche", "Monclova", "La Paz", "Nogales",
   "Buenavista", "Puerto Vallarta", "Tapachula", "Ciudad Madero",
   "San Pablo de las Salinas", "Chilpancingo", "Poza Rica",
   "Chicoloapan de Juarez", "Ciudad del Carmen",
   "Chalco de Diaz Covarrubias", "Jiutepec", "Salamanca",
   "San Luis Rio Colorado", "Cuautla", "Ciudad Benito Juarez",
   "Chetumal", "Piedras Negras", "Playa del Carmen", "Zamora", "Cordoba",
   "San Juan del Rio", "Colima", "Ciudad Acuna", "Manzanillo",
   "Zacatecas", "Veracruz", "Ciudad Valles", "Guadalupe",
   "San Pedro Garza Garcia", "Naucalpan", "Fresnillo", "Orizaba",
   "Miramar", "Iguala", "Delicias", "Ciudad de Villa de alvarez",
   "Ciudad Cuauhtemoc", "Navojoa", "Guaymas", "Minatitlan", "Cuautitlan",
   "Texcoco", "Hidalgo del Parral", "Tepexpan", "Tulancingo"]

/-- Model of `re.search(mexico_states_cities_pattern, city)`. -/
def mexicoMatch (s : String) : Bool :=
  mexicoList.any (fun w => containsWordPhrase w s)

/-- Model of the Canada exclusion search
`\bLONDON\b|\bUK\b|\bUNIT\b|\bGBR\b|\bAUS(TRALIA)?\b` (parse.py line
429); `\bAUS(TRALIA)?\b` succeeds somewhere in the text exactly when the
word `AUS` or the word `AUSTRALIA` occurs. -/
def canadaExclMatch (s : String) : Bool :=
  ["LONDON", "UK", "UNIT", "GBR", "AUS", "AUSTRALIA"].any
    (fun w => containsWordPhrase w s)

/-- Model of the Mexico exclusion search `\bSPAIN\b|\bESPANA\b|\bITALY\b`
(parse.py line 435). -/
def mexicoExclMatch (s : String) : Bool :=
  ["SPAIN", "ESPANA", "ITALY"].any (fun w => containsWordPhrase w s)

/-- Case-insensitive equality of a pattern word with a text prefix,
returning the remaining text. -/
def stripWordCI : List Char → List Char → Option (List Char)
  | [], rest => some rest
  | _ :: _, [] => none
  | p :: ps, c :: cs => if p.toLower == c.toLower then stripWordCI ps cs else none

/-- The literal alternatives of the first arm of `apt_pattern`
(parse.py line 495): `#|B(UI)?LD(IN)?G|SUITE|LOT|UNIT|FLOOR|R(OO)?M|AP(ARTMEN)?T`
expanded choice by choice. -/
def aptAlternatives : List String :=
  ["#", "BLDG", "BLDING", "BUILDG", "BUILDING", "SUITE", "LOT", "UNIT",
   "FLOOR", "RM", "ROOM", "APT", "APARTMENT"]

/-- First arm of `apt_pattern`: one of the keyword alternatives followed
by `.+` and the end anchor, i.e. the keyword is a proper prefix of the
line. -/
def aptMatchA (s : List Char) : Bool :=
  aptAlternatives.any (fun p => ((stripWordCI p.toList s).map
    (fun rest => decide (rest ≠ []))).getD false)

/-- Second arm of `apt_pattern`: `\d{1,4}\s?\w` anchored on both sides.
Because the pattern is anchored, the regex matches exactly when the line
decomposes as one to four digits, an optional single whitespace, and one
word character. -/
def aptMatchB (s : List Char) : Bool :=
  [1, 2, 3, 4].any (fun k =>
    k ≤ s.length && (s.take k).all Char.isDigit &&
      (match s.drop k with
       | [w] => isWordChar w
       | [sp, w] => sp.isWhitespace && isWordChar w
       | _ => false))

/-- The `FL(OO)?R?` endings of the third arm of `apt_pattern`. -/
def flTails : List String :=
  ["FL", "FLR", "FLOO", "FLOOR"]

/-- Case-insensitive equality of the remaining text with one of the
`FL(OO)?R?` endings. -/
def aptMatchFL (s : List Char) : Bool :=
  flTails.any (fun f => ((stripWordCI f.toList s).map
    (fun rest => decide (rest = []))).getD false)

/-- Optional single whitespace before the `FL...` ending. -/
def aptMatchWsFL (s : List Char) : Bool :=
  aptMatchFL s ||
    (match s with
     | c :: rest => c.isWhitespace && aptMatchFL rest
     | [] => false)

/-- Optional ordinal suffix `(ST|ND|RD|TH)?` before the whitespace and
the `FL...` ending. -/
def aptMatchOrd (s : List Char) : Bool :=
  aptMatchWsFL s ||
    ["ST", "ND", "RD", "TH"].any (fun o => ((stripWordCI o.toList s).map
      (fun rest => aptMatchWsFL rest)).getD false)

/-- Third arm of `apt_pattern`: `\d{1,3}(ST|ND|RD|TH)?\s?FL(OO)?R?`
anchored on both sides. -/
def aptMatchC (s : List Char) : Bool :=
  [1, 2, 3].any (fun k =>
    k ≤ s.length && (s.take k).all Char.isDigit && aptMatchOrd (s.drop k))

/-- Model of `apt_pattern.match(text)` as a Bool (parse.py line 495): the
pattern is anchored with `^( ... )$` and IGNORECASE, so the anchored
match succeeds exactly when one of the three arms consumes the whole
line. -/
def aptMatch (s : String) : Bool :=
  aptMatchA s.toList || aptMatchB s.toList || aptMatchC s.toList

/-- Model of `formatDomesticAddress` (parse.py lines 487-504).  The
compacted name/address entries `ns` are reshuffled into the 11-column
mailing block: with fewer than 2 entries there is no street line; with
the apartment detector firing on the last entry and more than 2 entries,
the second-to-last entry is the delivery address and the last entry the
alternate address; otherwise the last entry is the delivery address.
Python negative indices translate as `ns[-1] = ns[len-1]`,
`ns[-2] = ns[len-2]`, `ns[:-1] = take (len-1)`, `ns[:-2] = take (len-2)`. -/
def formatDomesticAddress (ns csz : List String) : List String :=
  if ns.length < 2 then
    ns ++ List.replicate (8 - ns.length) "" ++ ["", ""] ++ csz
  else
    let cond := aptMatch (ns.getD (ns.length - 1) "") && decide (2 < ns.length)
    let alternateAddr := if cond then ns.getD (ns.length - 1) "" else ""
    let nameLines := if cond then ns.take (ns.length - 2) else ns.take (ns.length - 1)
    let spacesShift := List.replicate (8 - nameLines.length) ""
    let deliveryAddr := if cond then ns.getD (ns.length - 2) "" else ns.getD (ns.length - 1) ""
    nameLines ++ spacesShift ++ [deliveryAddr, alternateAddr] ++ csz

/-- The four mailing partitions of `records_dict` (parse.py lines
337-338). -/
structure RecordsDict : Type where
  mex : List (List String)
  can : List (List String)
  fgn : List (List String)
  dom : List (List String)
  deriving DecidableEq, Repr

/-- The category the Country Inference Heuristic assigns to a foreign
record. -/
inductive ForeignCat : Type
  | CAN
  | MEX
  | FGN
  deriving DecidableEq, Repr

/-- Whether an address-line entry survives the compaction filter
`f.upper() not in ["","NULL"]` (parse.py line 419). -/
def notBlankNull (f : String) : Bool :=
  !((["", "NULL"] : List String).contains (pyUpper f))

/-- The compacted address lines of a record: the 8 name/address fields
`record[addr_start:addr_end]` with blank and NULL entries dropped
(parse.py lines 403-405, 419). -/
def compactAddr (record : List String) : List String :=
  ((record.drop (hdrIdx "NameAddress1")).take
      (hdrIdx "NameAddress8" + 1 - hdrIdx "NameAddress1")).filter notBlankNull

/-- Model of the per-record body of the `for record in sorted_foreign`
loop of `sortForeignByCountry` (parse.py lines 418-441):
`addrfields[-1]` raises `IndexError` when every address field is blank or
NULL; otherwise the record is stamped CAN, MEX or FGN according to the
regex evidence on the city text and the last populated address line. -/
def classifyForeignRecord (record : List String) :
    Except Unit (ForeignCat × List String) :=
  let addrfields := compactAddr record
  match addrfields.getLast? with
  | none => .error ()
  | some last_addr_field =>
    let record_city := record.getD (hdrIdx "Mailing City") ""
    if (canadaZipMatch record_city || oqMatch record_city ||
        canadaMajorCitiesMatch last_addr_field || canadaProvMatch record_city)
        && !canadaExclMatch record_city then
      .ok (.CAN, record.set (hdrIdx "AddressType") "CAN")
    else if mexicoMatch record_city && !mexicoExclMatch record_city then
      .ok (.MEX, record.set (hdrIdx "AddressType") "MEX")
    else
      .ok (.FGN, record.set (hdrIdx "AddressType") "FGN")

/-- Appends a classified record to its partition
(`records_dict[...].append(record)`). -/
def addToDict (d : RecordsDict) (cat : ForeignCat) (rec : List String) : RecordsDict :=
  match cat with
  | .CAN => { d with can := d.can ++ [rec] }
  | .MEX => { d with mex := d.mex ++ [rec] }
  | .FGN => { d with fgn := d.fgn ++ [rec] }

/-- The sort key `lambda row: row[city_idx]` (parse.py line 415). -/
def cityKey (row : List String) : String :=
  row.getD (hdrIdx "Mailing City") ""

/-- Ascending stable insertion by city key. -/
def insertByCity (row : List String) : List (List String) → List (List String)
  | [] => [row]
  | r :: rs =>
    if cityKey row ≤ cityKey r then row :: r :: rs else r :: insertByCity row rs

/-- Model of `sorted(foreignData, key=lambda row: row[city_idx])`: a
stable ascending sort by the city text. -/
def sortByCity : List (List String) → List (List String)
  | [] => []
  | r :: rs => insertByCity r (sortByCity rs)

/-- The classification loop of `sortForeignByCountry` over the sorted
foreign records. -/
def sortForeignAux : List (List String) → RecordsDict → Except Unit RecordsDict
  | [], d => .ok d
  | record :: rest, d =>
    match classifyForeignRecord record with
    | .error e => .error e
    | .ok (cat, rec) => sortForeignAux rest (addToDict d cat rec)

/-- Model of `sortForeignByCountry` (parse.py lines 362-441): sort the
foreign pre-classification set by city, then classify each record into
Canada, Mexico or other-foreign. -/
def sortForeignByCountry (foreignData : List (List String)) (records_dict : RecordsDict) :
    Except Unit RecordsDict :=
  sortForeignAux (sortByCity foreignData) records_dict

/-- Model of the `for dataRow in recordsList` loop of `createRecordsDict`
(parse.py lines 342-355), carried out on the partition dictionary and the
foreign pre-classification list: stamp the letter code, then route the
record by the `Mailing State == "FO"` test, blanking the zip on the
foreign path and normalizing it on the domestic path. -/
def createRecordsDictAux (letterCode : String) :
    List (List String) → RecordsDict → List (List String) →
    RecordsDict × List (List String)
  | [], d, foreignData => (d, foreignData)
  | dataRow :: rest, d, foreignData =>
    let row := dataRow.set (hdrIdx "LetterCode") letterCode
    if row.getD (hdrIdx "Mailing State") "" == "FO" then
      createRecordsDictAux letterCode rest d
        (foreignData ++ [row.set (hdrIdx "Zip") ""])
    else
      let row2 := row.set (hdrIdx "Zip") (formatZip (row.getD (hdrIdx "Zip") ""))
      let row3 := row2.set (hdrIdx "AddressType") "DOM"
      createRecordsDictAux letterCode rest { d with dom := d.dom ++ [row3] } foreignData

/-- Model of `createRecordsDict` (parse.py lines 333-359): route every
record, then run the Country Inference Heuristic over the foreign
pre-classification set. -/
def createRecordsDict (recordsList : List (List String)) (letterCode : String) :
    Except Unit RecordsDict :=
  let p := createRecordsDictAux letterCode recordsList ⟨[], [], [], []⟩ []
  sortForeignByCountry p.2 p.1

/-- The sum of the four partition sizes. -/
def dictSizes (d : RecordsDict) : Nat :=
  d.mex.length + d.can.length + d.fgn.length + d.dom.length

theorem getD_set_ne {α : Type} (v d : α) :
    ∀ (l : List α) (i j : Nat), i ≠ j → (l.set i v).getD j d = l.getD j d := by
  intro l
  induction l with
  | nil => intro i j _; rfl
  | cons a t ih =>
    intro i j hne
    cases i with
    | zero =>
      cases j with
      | zero => exact absurd rfl hne
      | succ j => simp [List.getD]
    | succ i =>
      cases j with
      | zero => simp [List.getD]
      | succ j =>
        simpa [List.getD] using ih i j (fun h => hne (by rw [h]))

theorem getD_set_self_of_lt {α : Type} (v d : α) :
    ∀ (l : List α) (i : Nat), i < l.length → (l.set i v).getD i d = v := by
  intro l
  induction l with
  | nil => intro i h; exact absurd h (by simp)
  | cons a t ih =>
    intro i h
    cases i with
    | zero => rfl
    | succ i => simpa [List.getD] using ih i (by simpa using h)

theorem getD_of_length_le {α : Type} (d : α) :
    ∀ (l : List α) (n : Nat), l.length ≤ n → l.getD n d = d := by
  intro l
  induction l with
  | nil => intro n _; cases n <;> rfl
  | cons a t ih =>
    intro n h
    cases n with
    | zero => exact absurd h (by simp)
    | succ n => simpa [List.getD] using ih n (by simpa using h)

theorem getD_set_blank :
    ∀ (l : List String) (i : Nat), (l.set i "").getD i "" = "" := by
  intro l i
  by_cases h : i < l.length
  · exact getD_set_self_of_lt "" "" l i h
  · rw [List.set_eq_of_length_le (Nat.le_of_not_lt h)]
    exact getD_of_length_le "" l i (Nat.le_of_not_lt h)

theorem slice_set {α : Type} (v : α) :
    ∀ (l : List α) (i n m : Nat), n + m ≤ i →
      ((l.set i v).drop n).take m = (l.drop n).take m := by
  intro l
  induction l with
  | nil => intro i n m _; rfl
  | cons a t ih =>
    intro i n m h
    cases i with
    | zero =>
      have hn : n = 0 := Nat.eq_zero_of_le_zero (Nat.le_trans (Nat.le_add_right n m) h)
      have hm : m = 0 := Nat.eq_zero_of_le_zero (by omega)
      simp [hn, hm]
    | succ i =>
      cases n with
      | zero =>
        cases m with
        | zero => rfl
        | succ m =>
          simpa using ih i 0 m (by omega)
      | succ n =>
        simpa using ih i n m (by omega)

theorem filter_not_of_all {α : Type} (q : α → Bool) :
    ∀ l : List α, l.all q = true → l.filter (fun x => !(q x)) = [] := by
  intro l
  induction l with
  | nil => intro _; rfl
  | cons a t ih =>
    intro h
    rw [List.all_cons, Bool.and_eq_true] at h
    rw [List.filter_cons]
    simp [h.1, ih h.2]

theorem mapExcept_ok_length {α β : Type} (f : α → Except Unit β) :
    ∀ (l : List α) (out : List β), mapExcept f l = .ok out → out.length = l.length := by
  intro l
  induction l with
  | nil => intro out h; cases h; rfl
  | cons a t ih =>
    intro out h
    unfold mapExcept at h
    cases hfa : f a with
    | error e => rw [hfa] at h; cases h
    | ok b =>
      rw [hfa] at h
      cases hm : mapExcept f t with
      | error e => rw [hm] at h; cases h
      | ok bs =>
        rw [hm] at h
        cases h
        simpa using ih bs hm

theorem mapExcept_ok_get {α β : Type} (f : α → Except Unit β) :
    ∀ (l : List α) (out : List β) (i : Nat) (x : α),
      mapExcept f l = .ok out → l.get? i = some x →
      ∃ y, out.get? i = some y ∧ f x = .ok y := by
  intro l
  induction l with
  | nil => intro out i x _ hx; cases i <;> cases hx
  | cons a t ih =>
    intro out i x h hx
    unfold mapExcept at h
    cases hfa : f a with
    | error e => rw [hfa] at h; cases h
    | ok b =>
      rw [hfa] at h
      cases hm : mapExcept f t with
      | error e => rw [hm] at h; cases h
      | ok bs =>
        rw [hm] at h
        cases h
        cases i with
        | zero =>
          cases hx
          exact ⟨b, rfl, hfa⟩
        | succ i => exact ih bs i x hm hx

theorem pyValEq_vint_vstr (n : Nat) (s : String) :
    pyValEq (PyVal.vint n) (PyVal.vstr s) = false := rfl

theorem sentinelHit_false (line : List String) : sentinelHit line = false := rfl

theorem length_insertByCity (row : List String) :
    ∀ l : List (List String), (insertByCity row l).length = l.length + 1 := by
  intro l
  induction l with
  | nil => rfl
  | cons r rs ih =>
    unfold insertByCity
    by_cases h : cityKey row ≤ cityKey r
    · simp [h]
    · simp [h, ih]

theorem length_sortByCity :
    ∀ l : List (List String), (sortByCity l).length = l.length := by
  intro l
  induction l with
  | nil => rfl
  | cons r rs ih => simp [sortByCity, length_insertByCity, ih]

theorem mem_insertByCity (row x : List String) :
    ∀ l : List (List String), x ∈ insertByCity row l → x = row ∨ x ∈ l := by
  intro l
  induction l with
  | nil =>
    intro h
    simpa [insertByCity] using h
  | cons r rs ih =>
    intro h
    unfold insertByCity at h
    by_cases hc : cityKey row ≤ cityKey r
    · rw [if_pos hc] at h
      rcases List.mem_cons.mp h with h1 | h1
      · exact Or.inl h1
      · exact Or.inr h1
    · rw [if_neg hc] at h
      rcases List.mem_cons.mp h with h1 | h1
      · exact Or.inr (by simp [h1])
      · rcases ih h1 with h2 | h2
        · exact Or.inl h2
        · exact Or.inr (by simp [h2])

theorem mem_sortByCity (x : List String) :
    ∀ l : List (List String), x ∈ sortByCity l → x ∈ l := by
  intro l
  induction l with
  | nil => intro h; cases h
  | cons r rs ih =>
    intro h
    rcases mem_insertByCity r x (sortByCity rs) h with h | h
    · simp [h]
    · simp [ih h]

theorem hdrIdx_LT : hdrIdx "LT" = 2 := rfl

theorem hdrIdx_CompanyNumber : hdrIdx "Company Number" = 4 := rfl

theorem hdrIdx_AccountNumber : hdrIdx "Account Number" = 6 := rfl

theorem hdrIdx_NA1 : hdrIdx "NameAddress1" = 7 := rfl

theorem hdrIdx_NA7 : hdrIdx "NameAddress7" = 13 := rfl

theorem hdrIdx_NA8 : hdrIdx "NameAddress8" = 14 := rfl

theorem hdrIdx_City : hdrIdx "Mailing City" = 17 := rfl

theorem hdrIdx_Zip : hdrIdx "Zip" = 18 := rfl

theorem hdrIdx_State : hdrIdx "Mailing State" = 19 := rfl

theorem hdrIdx_LetterCode : hdrIdx "LetterCode" = 22 := rfl

theorem hdrIdx_Escheat : hdrIdx "Escheatment State" = 24 := rfl

theorem hdrIdx_AddressType : hdrIdx "AddressType" = 25 := rfl

theorem classify_ok_set (record : List String) (cat : ForeignCat) (rec : List String)
    (h : classifyForeignRecord record = .ok (cat, rec)) :
    rec.getD 18 "" = record.getD 18 "" := by
  simp only [classifyForeignRecord] at h
  split at h
  · cases h
  · split at h
    · cases h
      exact getD_set_ne _ "" record _ 18 (by decide)
    · split at h
      · cases h
        exact getD_set_ne _ "" record _ 18 (by decide)
      · cases h
        exact getD_set_ne _ "" record _ 18 (by decide)

theorem sortForeignAux_sizes :
    ∀ (l : List (List String)) (d d' : RecordsDict),
      sortForeignAux l d = .ok d' → dictSizes d' = dictSizes d + l.length := by
  intro l
  induction l with
  | nil => intro d d' h; cases h; simp
  | cons r rest ih =>
    intro d d' h
    unfold sortForeignAux at h
    cases hc : classifyForeignRecord r with
    | error e => rw [hc] at h; cases h
    | ok p =>
      obtain ⟨cat, rec⟩ := p
      rw [hc] at h
      have hrec := ih (addToDict d cat rec) d' h
      have hadd : dictSizes (addToDict d cat rec) = dictSizes d + 1 := by
        cases cat <;> simp [addToDict, dictSizes] <;> omega
      rw [hrec, hadd]
      simp [Nat.add_assoc, Nat.add_comm 1 rest.length]

theorem sortForeignAux_inv :
    ∀ (l : List (List String)) (d d' : RecordsDict),
      sortForeignAux l d = .ok d' →
      (∀ r ∈ l, r.getD 18 "" = "") →
      (∀ r ∈ d.mex, r.getD 18 "" = "") →
      (∀ r ∈ d.can, r.getD 18 "" = "") →
      (∀ r ∈ d.fgn, r.getD 18 "" = "") →
      d'.dom = d.dom ∧
      (∀ r ∈ d'.mex, r.getD 18 "" = "") ∧
      (∀ r ∈ d'.can, r.getD 18 "" = "") ∧
      (∀ r ∈ d'.fgn, r.getD 18 "" = "") := by
  intro l
  induction l with
  | nil =>
    intro d d' h hl hm hc hf
    cases h
    exact ⟨rfl, hm, hc, hf⟩
  | cons r rest ih =>
    intro d d' h hl hm hc hf
    unfold sortForeignAux at h
    cases hcl : classifyForeignRecord r with
    | error e => rw [hcl] at h; cases h
    | ok p =>
      obtain ⟨cat, rec⟩ := p
      rw [hcl] at h
      have hzip : rec.getD 18 "" = "" := by
        rw [classify_ok_set r cat rec hcl]
        exact hl r (by simp)
      have hrest : ∀ x ∈ rest, x.getD 18 "" = "" := fun x hx => hl x (by simp [hx])
      have happ := ih (addToDict d cat rec) d' h hrest
      cases cat with
      | CAN =>
        have := happ hm
          (by
            intro x hx
            rcases List.mem_append.mp hx with hx | hx
            · exact hc x hx
            · simp at hx; rw [hx]; exact hzip)
          hf
        exact this
      | MEX =>
        have := happ
          (by
            intro x hx
            rcases List.mem_append.mp hx with hx | hx
            · exact hm x hx
            · simp at hx; rw [hx]; exact hzip)
          hc hf
        exact this
      | FGN =>
        have := happ hm hc
          (by
            intro x hx
            rcases List.mem_append.mp hx with hx | hx
            · exact hf x hx
            · simp at hx; rw [hx]; exact hzip)
        exact this

theorem getD_set_ne2 {α : Type} {l : List α} {i j : Nat} (v d : α) (h : i ≠ j) :
    (l.set i v).getD j d = l.getD j d :=
  getD_set_ne v d l i j h

theorem createAux_sizes (lc : String) :
    ∀ (rows : List (List String)) (d : RecordsDict) (fd : List (List String)),
      dictSizes (createRecordsDictAux lc rows d fd).1 +
          (createRecordsDictAux lc rows d fd).2.length =
        dictSizes d + fd.length + rows.length := by
  intro rows
  induction rows with
  | nil => intro d fd; simp [createRecordsDictAux]
  | cons rr rest ih =>
    intro d fd
    simp only [createRecordsDictAux]
    split
    · rw [ih]
      simp [List.length_append]
      omega
    · rw [ih]
      simp [dictSizes, List.length_append]
      omega

theorem createAux_buckets (lc : String) :
    ∀ (rows : List (List String)) (d : RecordsDict) (fd : List (List String)),
      (createRecordsDictAux lc rows d fd).1.mex = d.mex ∧
      (createRecordsDictAux lc rows d fd).1.can = d.can ∧
      (createRecordsDictAux lc rows d fd).1.fgn = d.fgn := by
  intro rows
  induction rows with
  | nil => intro d fd; simp [createRecordsDictAux]
  | cons rr rest ih =>
    intro d fd
    simp only [createRecordsDictAux]
    split
    · exact ih d _
    · exact ih _ fd

theorem createAux_dom (lc : String) :
    ∀ (rows : List (List String)) (d : RecordsDict) (fd : List (List String)),
      (∀ r ∈ d.dom, r.getD 19 "" ≠ "FO") →
      ∀ r ∈ (createRecordsDictAux lc rows d fd).1.dom, r.getD 19 "" ≠ "FO" := by
  intro rows
  induction rows with
  | nil =>
    intro d fd hd
    simpa [createRecordsDictAux] using hd
  | cons rr rest ih =>
    intro d fd hd
    simp only [createRecordsDictAux, hdrIdx_LetterCode, hdrIdx_State, hdrIdx_Zip,
      hdrIdx_AddressType]
    split
    · exact ih d _ hd
    · rename_i hcond
      apply ih
      intro x hx
      rcases List.mem_append.mp hx with hx | hx
      · exact hd x hx
      · simp at hx
        rw [hx]
        rw [getD_set_ne2 "DOM" "" (by decide)]
        rw [getD_set_ne2 _ "" (show (18 : Nat) ≠ 19 by decide)]
        simpa using hcond

theorem createAux_fd_zip (lc : String) :
    ∀ (rows : List (List String)) (d : RecordsDict) (fd : List (List String)),
      (∀ r ∈ fd, r.getD 18 "" = "") →
      ∀ r ∈ (createRecordsDictAux lc rows d fd).2, r.getD 18 "" = "" := by
  intro rows
  induction rows with
  | nil =>
    intro d fd hfd
    simpa [createRecordsDictAux] using hfd
  | cons rr rest ih =>
    intro d fd hfd
    simp only [createRecordsDictAux, hdrIdx_LetterCode, hdrIdx_State, hdrIdx_Zip,
      hdrIdx_AddressType]
    split
    · apply ih
      intro x hx
      rcases List.mem_append.mp hx with hx | hx
      · exact hfd x hx
      · simp at hx
        rw [hx]
        exact getD_set_blank _ 18
    · exact ih _ fd hfd

/-- C5: whenever classification completes, every record lands in exactly
one of the four partitions: the partition sizes sum to the number of
input records. -/
theorem C5_partition_sizes (records : List (List String)) (letterCode : String)
    (d : RecordsDict) (h : createRecordsDict records letterCode = .ok d) :
    d.mex.length + d.can.length + d.fgn.length + d.dom.length = records.length := by
  simp only [createRecordsDict, sortForeignByCountry] at h
  have hs := sortForeignAux_sizes _ _ _ h
  rw [length_sortByCity] at hs
  have ha := createAux_sizes letterCode records ⟨[], [], [], []⟩ []
  show dictSizes d = records.length
  rw [hs, ha]
  simp [dictSizes]

/-- C6: a record with Mailing State FO is routed to the foreign
pre-classification set with its Zip blanked: no Domestic-partition record
carries Mailing State FO, and every record of the three foreign
partitions has an empty Zip. -/
theorem C6_FO_routing (records : List (List String)) (letterCode : String)
    (d : RecordsDict) (h : createRecordsDict records letterCode = .ok d) :
    (∀ r ∈ d.dom, r.getD (hdrIdx "Mailing State") "" ≠ "FO") ∧
    (∀ r ∈ d.mex, r.getD (hdrIdx "Zip") "" = "") ∧
    (∀ r ∈ d.can, r.getD (hdrIdx "Zip") "" = "") ∧
    (∀ r ∈ d.fgn, r.getD (hdrIdx "Zip") "" = "") := by
  simp only [createRecordsDict, sortForeignByCountry] at h
  have hbuck := createAux_buckets letterCode records ⟨[], [], [], []⟩ []
  have hfz := createAux_fd_zip letterCode records ⟨[], [], [], []⟩ []
    (by intro x hx; cases hx)
  have hdom := createAux_dom letterCode records ⟨[], [], [], []⟩ []
    (by intro x hx; cases hx)
  have hinv := sortForeignAux_inv _ _ d h
    (fun r hr => hfz r (mem_sortByCity r _ hr))
    (by rw [hbuck.1]; intro x hx; cases hx)
    (by rw [hbuck.2.1]; intro x hx; cases hx)
    (by rw [hbuck.2.2]; intro x hx; cases hx)
  refine ⟨?_, ?_, ?_, ?_⟩
  · rw [hdrIdx_State, hinv.1]
    exact hdom
  · rw [hdrIdx_Zip]; exact hinv.2.1
  · rw [hdrIdx_Zip]; exact hinv.2.2.1
  · rw [hdrIdx_Zip]; exact hinv.2.2.2

/-- C10: a record routed to the foreign pre-classification set whose
eight name/address fields are all blank or NULL makes the Country
Inference Heuristic take the last element of an empty list, aborting the
batch instead of defaulting to other-foreign. -/
theorem C10_blank_foreign_aborts (record : List String) (letterCode : String)
    (hstate : record.getD (hdrIdx "Mailing State") "" = "FO")
    (hblank : ((record.drop (hdrIdx "NameAddress1")).take 8).all
        (fun f => (["", "NULL"] : List String).contains (pyUpper f)) = true) :
    createRecordsDict [record] letterCode = .error () := by
  rw [hdrIdx_State] at hstate
  rw [hdrIdx_NA1] at hblank
  have hslice :
      (((record.set 22 letterCode).set 18 "").drop 7).take 8 = (record.drop 7).take 8 := by
    rw [slice_set "" (record.set 22 letterCode) 18 7 8 (by decide)]
    rw [slice_set letterCode record 22 7 8 (by decide)]
  have hempty : compactAddr ((record.set 22 letterCode).set 18 "") = [] := by
    simp only [compactAddr, hdrIdx_NA1, hdrIdx_NA8,
      show (14 : Nat) + 1 - 7 = 8 from by norm_num]
    rw [hslice]
    exact filter_not_of_all
      (fun f : String => (["", "NULL"] : List String).contains (pyUpper f)) _ hblank
  have hcl : classifyForeignRecord ((record.set 22 letterCode).set 18 "") = .error () := by
    simp only [classifyForeignRecord, hempty, List.getLast?]
  have hcond : (((record.set 22 letterCode).getD 19 "" == "FO") = true) := by
    rw [getD_set_ne2 letterCode "" (by decide), hstate]
    decide
  simp only [createRecordsDict, createRecordsDictAux, sortForeignByCountry,
    hdrIdx_LetterCode, hdrIdx_State, hdrIdx_Zip, hcond, if_true]
  simp only [sortByCity, insertByCity, List.nil_append, sortForeignAux, hcl]

/-- C7: on a domestic record with more than 2 compacted entries whose
last entry fires the apartment detector, the second-to-last entry becomes
the delivery address, the last entry the alternate address, and the
earlier entries are the name lines padded with blanks to 8 slots. -/
theorem C7_domestic_apt_split (ns csz : List String)
    (h2 : 2 < ns.length)
    (hm : aptMatch (ns.getD (ns.length - 1) "") = true) :
    formatDomesticAddress ns csz =
      ns.take (ns.length - 2) ++ List.replicate (8 - (ns.length - 2)) "" ++
        [ns.getD (ns.length - 2) "", ns.getD (ns.length - 1) ""] ++ csz := by
  unfold formatDomesticAddress
  rw [if_neg (by omega)]
  have hcond : (aptMatch (ns.getD (ns.length - 1) "") && decide (2 < ns.length)) = true := by
    rw [hm]
    simp [h2]
  simp only [hcond, if_true]
  rw [List.length_take, Nat.min_eq_left (by omega)]

/-- Witness for C7 at the concrete record of the specification. -/
theorem C7_witness :
    formatDomesticAddress ["JOHN DOE", "123 MAIN ST", "APT 4B"] ["ANYTOWN", "NY", "12345"] =
      ["JOHN DOE", "", "", "", "", "", "", "", "123 MAIN ST", "APT 4B",
       "ANYTOWN", "NY", "12345"] := by
  have h := C7_domestic_apt_split ["JOHN DOE", "123 MAIN ST", "APT 4B"]
    ["ANYTOWN", "NY", "12345"] (by decide) (by decide)
  exact h.trans (by decide)

/-- C9: per processed data row, the Escheatment State translation fails
fatally exactly when the abbreviation is not a key of the lookup table;
on a recognized key the field is replaced with the full state name; and a
fatal row aborts the whole batch. -/
theorem C9_escheat_lookup (field_indxs : List (Option Nat)) (line dataRow : List String)
    (hdata : getFieldValuesFromLine line field_indxs = .ok dataRow) :
    ((processRow field_indxs line = .error ()) ↔
      usLookup (dataRow.getD (hdrIdx "Escheatment State") "") = none) ∧
    (∀ fullName, usLookup (dataRow.getD (hdrIdx "Escheatment State") "") = some fullName →
      ∃ out, processRow field_indxs line = .ok out ∧
        out.getD (hdrIdx "Escheatment State") "" = fullName) ∧
    (∀ rest, processRow field_indxs line = .error () →
      processXLSRows field_indxs (line :: rest) = .error ()) := by
  by_cases hN : usLookup (dataRow.getD (hdrIdx "Escheatment State") "") = none
  · have herr : processRow field_indxs line = .error () := by
      simp only [processRow, hdata, hN]
    refine ⟨⟨fun _ => hN, fun _ => herr⟩, ?_, ?_⟩
    · intro fullName hfn
      rw [hN] at hfn
      exact Option.noConfusion hfn
    · intro rest _
      simp [processXLSRows, sentinelHit_false, herr]
  · obtain ⟨fullName0, hlook⟩ :
        ∃ f, usLookup (dataRow.getD (hdrIdx "Escheatment State") "") = some f := by
      cases hu : usLookup (dataRow.getD (hdrIdx "Escheatment State") "") with
      | none => exact absurd hu hN
      | some f => exact ⟨f, rfl⟩
    have h24 : 24 < dataRow.length := by
      by_contra hnot
      have hd24 : dataRow.getD 24 "" = "" :=
        getD_of_length_le "" dataRow 24 (Nat.le_of_not_lt hnot)
      rw [hdrIdx_Escheat, hd24] at hlook
      have hemp : usLookup "" = none := by decide
      rw [hemp] at hlook
      exact Option.noConfusion hlook
    have hok : processRow field_indxs line =
        .ok (let dr := dataRow.set (hdrIdx "Escheatment State") fullName0
             if dr.getD (hdrIdx "LT") "" == "" then
               dr.set (hdrIdx "LT")
                 ((dr.getD (hdrIdx "Company Number") "") ++ (dr.getD (hdrIdx "Account Number") ""))
             else dr) := by
      simp only [processRow, hdata, hlook]
    have hval : (let dr := dataRow.set (hdrIdx "Escheatment State") fullName0
        if dr.getD (hdrIdx "LT") "" == "" then
          dr.set (hdrIdx "LT")
            ((dr.getD (hdrIdx "Company Number") "") ++ (dr.getD (hdrIdx "Account Number") ""))
        else dr).getD (hdrIdx "Escheatment State") "" = fullName0 := by
      simp only [hdrIdx_Escheat, hdrIdx_LT, hdrIdx_CompanyNumber, hdrIdx_AccountNumber]
      have hbase : (dataRow.set 24 fullName0).getD 24 "" = fullName0 :=
        getD_set_self_of_lt fullName0 "" dataRow 24 h24
      by_cases hlt : ((dataRow.set 24 fullName0).getD 2 "" == "") = true
      · simp only [hlt, if_true]
        rw [getD_set_ne2 _ "" (show (2 : Nat) ≠ 24 by decide)]
        exact hbase
      · simp only [hlt, if_false]
        exact hbase
    refine ⟨⟨?_, ?_⟩, ?_, ?_⟩
    · intro habs
      rw [hok] at habs
      exact Except.noConfusion habs
    · intro habs
      exact absurd habs hN
    · intro fullName hfn
      rw [hlook] at hfn
      obtain rfl : fullName0 = fullName := Option.some.inj hfn
      exact ⟨_, hok, hval⟩
    · intro rest habs
      rw [hok] at habs
      exact Except.noConfusion habs

/-- The resolved-index list and data row of a concrete tabular witness:
only the Escheatment State field resolves (to source column 0). -/
def wFi : List (Option Nat) :=
  List.replicate 24 (none : Option Nat) ++ [some 0, none]

/-- Witness for C9: a row whose Escheatment State abbreviation TX is
recognized decodes with the field replaced by Texas. -/
theorem C9_witness :
    (processRow wFi ["TX"]).map (fun out => out.getD (hdrIdx "Escheatment State") "") =
      Except.ok "Texas" := by
  have hdata : getFieldValuesFromLine ["TX"] wFi =
      .ok (List.replicate 24 "" ++ ["TX", ""]) := by decide
  obtain ⟨out, hout, hval⟩ :=
    (C9_escheat_lookup wFi ["TX"] _ hdata).2.1 "Texas" (by decide)
  rw [hout]
  simp only [Except.map]
  rw [hval]

/-- The Field Mapper behaviour the specification describes: the index of
the first column, scanning left to right, whose name the pattern matches
anchored at the start. -/
def specFieldIndex (cols : List String) (p : String → Option String) : Option Nat :=
  cols.findIdx? (fun c => (p c).isSome)

/-- Counterexample for C3: with the canonical `Zip` pattern and the
header `[Zip Code, Zip]`, the first matching column is at index 0, but
the mapper resolves the field to index 1 (the index of the first column
equal to the matched text `Zip`). -/
theorem C3_counterexample :
    fieldIndexForPattern ["Zip Code", "Zip"] zipPattern = .ok (some 1) ∧
    specFieldIndex ["Zip Code", "Zip"] zipPattern = some 0 ∧ (1 : Nat) ≠ 0 := by
  decide

/-- C3 amended: the mapper resolves a field to the index of the first
column equal to the text matched by the pattern on the first matching
column (raising an error when no column equals that text); a field with
no matching column yields the not-found sentinel, and the consuming
decoder substitutes the empty string at sentinel positions. -/
theorem C3_field_mapper_amended (cols : List String) (p : String → Option String) :
    ((∀ c ∈ cols, p c = none) → fieldIndexForPattern cols p = .ok none) ∧
    (∀ col m, cols.find? (fun c => (p c).isSome) = some col → p col = some m →
      fieldIndexForPattern cols p =
        (match cols.findIdx? (fun c => c == m) with
         | some i => .ok (some i)
         | none => .error ())) ∧
    (∀ (line : List String) (idxs : List (Option Nat)) (out : List String) (i : Nat),
      getFieldValuesFromLine line idxs = .ok out → idxs.get? i = some none →
      out.get? i = some "") := by
  refine ⟨?_, ?_, ?_⟩
  · intro hnone
    unfold fieldIndexForPattern
    have hfind : cols.find? (fun c => (p c).isSome) = none := by
      rw [List.find?_eq_none]
      intro x hx
      simp [hnone x hx]
    rw [hfind]
  · intro col m hfind hm
    unfold fieldIndexForPattern
    cases hidx : List.findIdx? (fun c => c == m) cols with
    | some i => simp only [hfind, hm, hidx]
    | none => simp only [hfind, hm, hidx]
  · intro line idxs out i hok hidx
    obtain ⟨y, hy, hfy⟩ := mapExcept_ok_get _ idxs out i none hok hidx
    have hy2 : (Except.ok "" : Except Unit String) = .ok y := hfy
    cases hy2
    exact hy

/-- Witness for C3 at the concrete header of the counterexample. -/
theorem C3_witness :
    fieldIndexForPattern ["Zip Code", "Zip"] zipPattern = .ok (some 1) := by
  have h := (C3_field_mapper_amended ["Zip Code", "Zip"] zipPattern).2.1 "Zip Code" "Zip"
    (by decide) (by decide)
  exact h.trans (by decide)

set_option maxRecDepth 100000

/-- C1: on the concrete 24-field flat line `sampleLine` whose seventh
address line is ADDR7, the decoder produces 26 values but leaves the
empty inserted field at the NameAddress7 position and shifts the seventh
flat address line into NameAddress8 (the insert happens at
`static_hdr.index("NameAddress7")`, one position before the boundary the
code comment and the specification describe). -/
theorem C1_flat_extension_bug :
    (processTXTLine sampleLine).map
        (fun out => (out.length, out.getD (hdrIdx "NameAddress1") "",
          out.getD (hdrIdx "NameAddress7") "", out.getD (hdrIdx "NameAddress8") "")) =
      Except.ok (26, "NAME LINE 1", "", "ADDR7") := by
  decide

/-- C2: the end-of-data check of the Tabular Decoder compares an int with
a str and is therefore never true, so the decoder does not stop at an
all-empty row: it attempts to decode it and the batch aborts on the state
lookup instead of returning the rows gathered so far. -/
theorem C2_sentinel_dead :
    (∀ line : List String, sentinelHit line = false) ∧
    processXLSRows (List.replicate 26 (none : Option Nat))
        [List.replicate 5 "", ["X"]] = .error () := by
  refine ⟨sentinelHit_false, ?_⟩
  decide

/-- A concrete domestic test record: two populated address lines, a
9-digit zip and Mailing State NY. -/
def wDomRec : List String :=
  ["", "", "", "", "", "", "", "JOHN DOE", "123 MAIN ST", "", "", "", "",
   "", "", "", "", "ANYTOWN", "100014545", "NY", "", "", "", "", "IL", ""]

/-- A concrete foreign test record: Mailing State FO, one populated
address line and city text B. -/
def wFgnRec : List String :=
  ["", "", "", "", "", "", "", "X", "", "", "", "", "", "", "", "", "",
   "B", "", "FO", "", "", "", "", "", ""]

/-- Witness for C5 at a concrete two-record batch (one domestic, one
foreign). -/
theorem C5_witness :
    (createRecordsDict [wDomRec, wFgnRec] "A").map dictSizes = Except.ok 2 := by
  obtain ⟨d, hd⟩ : ∃ d, createRecordsDict [wDomRec, wFgnRec] "A" = Except.ok d := ⟨_, rfl⟩
  rw [hd]
  have hs := C5_partition_sizes [wDomRec, wFgnRec] "A" d hd
  simp only [Except.map]
  rw [show dictSizes d = 2 from hs]

/-- Witness for C6 at the same concrete batch: no Domestic record has
state FO and every foreign-partition record has an empty Zip. -/
theorem C6_witness :
    (createRecordsDict [wDomRec, wFgnRec] "A").map
        (fun d => (d.dom.all (fun r => !(r.getD (hdrIdx "Mailing State") "" == "FO")),
          (d.mex ++ d.can ++ d.fgn).all (fun r => r.getD (hdrIdx "Zip") "" == ""))) =
      Except.ok (true, true) := by
  obtain ⟨d, hd⟩ : ∃ d, createRecordsDict [wDomRec, wFgnRec] "A" = Except.ok d := ⟨_, rfl⟩
  have h6 := C6_FO_routing [wDomRec, wFgnRec] "A" d hd
  have h1 : d.dom.all (fun r => !(r.getD (hdrIdx "Mailing State") "" == "FO")) = true := by
    rw [List.all_eq_true]
    intro r hr
    simpa using h6.1 r hr
  have h2 : (d.mex ++ d.can ++ d.fgn).all (fun r => r.getD (hdrIdx "Zip") "" == "") = true := by
    rw [List.all_eq_true]
    intro r hr
    rcases List.mem_append.mp hr with h12 | h3
    · rcases List.mem_append.mp h12 with hm | hc
      · simpa using h6.2.1 r hm
      · simpa using h6.2.2.1 r hc
    · simpa using h6.2.2.2 r h3
  rw [hd]
  simp only [Except.map, h1, h2]

/-- A concrete record with Mailing State FO whose eight address fields
are all blank or NULL. -/
def wBlankRec : List String :=
  ["", "", "", "", "", "", "", "", "NULL", "", "", "", "", "", "", "",
   "", "PARIS", "", "FO", "", "", "", "", "", ""]

/-- Witness for C10 at the concrete all-blank foreign record. -/
theorem C10_witness :
    createRecordsDict [wBlankRec] "A" = Except.error () :=
  C10_blank_foreign_aborts wBlankRec "A" (by decide) (by decide)

/-- A concrete foreign record whose city text is the bare word ON: one
populated address line and Mailing State FO. -/
def onRecord : List String :=
  ["", "", "", "", "", "", "", "X", "", "", "", "", "", "", "", "", "",
   "ON", "", "FO", "", "", "", "", "", ""]

/-- C4: the Ontario/Quebec route fires on the bare word ON with no postal
code after it (regex alternation precedence makes `\bON\b` a complete
alternative), while bare QC does not fire; a record whose only evidence
is the city text ON is classified Canada. -/
theorem C4_bare_ON_matches :
    oqMatch "ON" = true ∧ oqMatch "QC" = false ∧
    classifyForeignRecord onRecord =
      .ok (ForeignCat.CAN, onRecord.set (hdrIdx "AddressType") "CAN") := by
  decide

end DD
